import Mathlib

/-!
Verification of the web-cache / URL-access-tracker module
(`0x02-redis_basic/web.py`).

The Python module defines a `Cache` class holding a Redis connection.
We shallow-embed the Redis store as an association list from string keys
to string values together with an optional absolute expiry deadline, and
time as a natural number of seconds.  Every operation of the source is
translated directly:

* `redisIncr`  models `redis.incr` (INCR): absent or expired keys are
  treated as 0 and freshly created without expiry; existing values must
  parse as decimal integers (otherwise Redis raises an error) and keep
  their expiry deadline.
* `redisGet`   models `redis.get`: `none` for absent or expired keys.
* `redisSetex` models `redis.setex`: overwrite with deadline `now + ttl`.
* `wrapper`    models the inner `wrapper` function produced by the
  `count_and_cache(ttl)` decorator — the body of `getPage(url, ttl)`.
* `get_page`   models the decorated `Cache.get_page` (ttl fixed at 10),
  with the HTTP transport outcome passed in as an oracle.
* `get_count`  models `Cache.get_count`.

Python byte strings are modelled as Lean `String`s; `decode('utf-8')`
is the identity under that identification.  `int(bytes)` and the integer
parsing done by Redis INCR are both modelled by `pyInt?`, a decimal
parser with optional sign.
-/

/-- Errors that the Python code can raise: `ValueError` from `int(...)`,
a Redis error when `INCR` is applied to a non-integer value, and an
exception escaping `requests.get` (network failure). -/
inductive PyErr where
  | valueError
  | redisNotInt
  | requestsError (msg : String)
deriving DecidableEq, Repr

deriving instance DecidableEq for Except

/-- Outcome of the HTTP transport for one `requests.get` call: either a
response (any status code, with a body) or a raised network exception. -/
inductive HttpOutcome where
  | success (status : Nat) (body : String)
  | netFailure (msg : String)
deriving DecidableEq, Repr

/-- The part of a `requests` response object the code uses. -/
structure HttpResp where
  status : Nat
  text : String
deriving DecidableEq, Repr

/-- Model of `requests.get(url)` given the transport outcome: raises on network
failure, otherwise returns the response object — with no status check. -/
def requestsGet : HttpOutcome → Except PyErr HttpResp
  | .success st body => .ok ⟨st, body⟩
  | .netFailure msg => .error (.requestsError msg)

/-- The undecorated body of `get_page`:
`response = requests.get(url); return response.text`. -/
def fetchPage (o : HttpOutcome) : Except PyErr String :=
  match requestsGet o with
  | .error e => .error e
  | .ok resp => .ok resp.text

/-- The decimal digit character for `d < 10`, via its ASCII code
(`48` is the code of the zero digit). -/
def digitToChar (d : Nat) : Char := Char.ofNat (48 + d)

/-- Inverse of `digitToChar` on digit characters: the digit value of an
ASCII decimal digit, `none` on every other character. -/
def charToDigit? (c : Char) : Option Nat :=
  if 48 ≤ c.toNat ∧ c.toNat ≤ 57 then some (c.toNat - 48) else none

/-- Decimal rendering of a natural number, most significant digit first
(fuel-indexed helper; any fuel above the digit count is enough). -/
def natToCharsAux : Nat → Nat → List Char
  | 0, _ => []
  | fuel + 1, n =>
    if n < 10 then [digitToChar n]
    else natToCharsAux fuel (n / 10) ++ [digitToChar (n % 10)]

/-- Decimal rendering of a natural number, most significant digit first. -/
def natToChars (n : Nat) : List Char := natToCharsAux (n + 1) n

/-- Decimal string representation of a natural number. -/
def natToString (n : Nat) : String := ⟨natToChars n⟩

/-- Decimal string representation of an integer (what Redis stores for
counters). -/
def intToString (i : Int) : String :=
  if i < 0 then "-" ++ natToString i.natAbs else natToString i.toNat

/-- Accumulator-style parse of a digit list; fails on any non-digit. -/
def parseDigitsAux (acc : Nat) : List Char → Option Nat
  | [] => some acc
  | c :: cs =>
    match charToDigit? c with
    | some d => parseDigitsAux (acc * 10 + d) cs
    | none => none

/-- Parse a non-empty all-digit list; `none` on empty or non-digit input. -/
def parseDigits? : List Char → Option Nat
  | [] => none
  | c :: cs => parseDigitsAux 0 (c :: cs)

/-- Integer parsing on a character list: an optional sign followed by
at least one decimal digit. -/
def pyIntChars : List Char → Option Int
  | [] => none
  | c :: cs =>
    if c = '-' then (parseDigits? cs).map (fun n => -(n : Int))
    else if c = '+' then (parseDigits? cs).map (fun n => (n : Int))
    else (parseDigits? (c :: cs)).map (fun n => (n : Int))

/-- Integer parsing shared by Python `int(...)` and Redis INCR. -/
def pyInt? (s : String) : Option Int := pyIntChars s.data

/-- The Redis database: a list of `(key, value, expiry deadline)` rows.
`none` as deadline means the key never expires. -/
abbrev Store := List (String × String × Option Nat)

/-- Raw row lookup, ignoring expiry. -/
def rawLookup : Store → String → Option (String × Option Nat)
  | [], _ => none
  | (k, v, d) :: rest, key => if k = key then some (v, d) else rawLookup rest key

/-- A deadline `some dl` has passed once the clock reaches `dl`. -/
def isExpired (d : Option Nat) (t : Nat) : Bool :=
  match d with
  | none => false
  | some dl => dl ≤ t

/-- Insert or overwrite a row. -/
def setKey : Store → String → String → Option Nat → Store
  | [], key, v, d => [(key, v, d)]
  | (k, v0, d0) :: rest, key, v, d =>
    if k = key then (key, v, d) :: rest else (k, v0, d0) :: setKey rest key v d

/-- Model of `redis.get(key)` at time `t`: `None` for absent or expired keys. -/
def redisGet (s : Store) (t : Nat) (key : String) : Option String :=
  match rawLookup s key with
  | none => none
  | some (v, d) => if isExpired d t then none else some v

/-- Model of `redis.setex(key, ttl, value)` at time `t`. -/
def redisSetex (s : Store) (t : Nat) (key : String) (ttl : Nat) (v : String) : Store :=
  setKey s key v (some (t + ttl))

/-- Model of `redis.incr(key)` at time `t`: an absent or expired key is created
fresh at 1 with no expiry; an existing value must parse as an integer
(else Redis errors and the store is unchanged) and keeps its deadline. -/
def redisIncr (s : Store) (t : Nat) (key : String) : Except PyErr (Store × Int) :=
  match rawLookup s key with
  | none => .ok (setKey s key (intToString 1) none, 1)
  | some (v, d) =>
    if isExpired d t then .ok (setKey s key (intToString 1) none, 1)
    else
      match pyInt? v with
      | none => .error .redisNotInt
      | some n => .ok (setKey s key (intToString (n + 1)) d, n + 1)

/-- The counter key of a URL, `cache_key` in the source: `"count:" ++ url`. -/
def countKey (url : String) : String := "count:" ++ url

/-- The truthiness test `if cached_page:` — a hit needs a present,
unexpired, non-empty value. -/
def truthyGet (s : Store) (t : Nat) (key : String) : Option String :=
  match redisGet s t key with
  | none => none
  | some v => if v = "" then none else some v

/-- Result of one `wrapper`/`get_page` call: the store afterwards,
whether the wrapped fetch function was invoked, and the returned value
or the exception that propagated. -/
structure PageResult where
  store : Store
  fetched : Bool
  result : Except PyErr String
deriving DecidableEq, Repr

/-- The part of `wrapper` after the counter increment succeeded:
return the cached value if truthy; otherwise invoke the fetch, cache a
successful result with `setex`, and return it; a failed fetch
propagates and writes nothing. -/
def wrapperAfterIncr (s1 : Store) (t : Nat) (ttl : Nat) (url : String)
    (func : Except PyErr String) : PageResult :=
  match truthyGet s1 t url with
  | some page => { store := s1, fetched := false, result := .ok page }
  | none =>
    match func with
    | .error e => { store := s1, fetched := true, result := .error e }
    | .ok content =>
      { store := redisSetex s1 t url ttl content, fetched := true,
        result := .ok content }

/-- The `wrapper` closure built by `count_and_cache(ttl)` — the body of
`getPage(url, ttl)`.  `func` is the outcome the wrapped fetch function
would produce on this call.  Steps, exactly as in the source:
increment `count:url` first (a failed increment propagates and nothing
further runs), then the cache-check / fetch / store sequence. -/
def wrapper (s : Store) (t : Nat) (ttl : Nat) (url : String)
    (func : Except PyErr String) : PageResult :=
  match redisIncr s t (countKey url) with
  | .error e => { store := s, fetched := false, result := .error e }
  | .ok (s1, _) => wrapperAfterIncr s1 t ttl url func

/-- The decorated `Cache.get_page` — `count_and_cache(ttl=10)` applied
to the fetch body, with the transport outcome passed as the oracle. -/
def get_page (s : Store) (t : Nat) (url : String) (o : HttpOutcome) : PageResult :=
  wrapper s t 10 url (fetchPage o)

/-- Model of `Cache.get_count`: read the counter key and return
`int(count) if count else 0` — absent and empty are 0, anything else is
parsed and `ValueError` propagates when the parse fails. -/
def get_count (s : Store) (t : Nat) (url : String) : Except PyErr Int :=
  match redisGet s t (countKey url) with
  | none => .ok 0
  | some v =>
    if v = "" then .ok 0
    else
      match pyInt? v with
      | some n => .ok n
      | none => .error .valueError

/-- One `getPage(url, ttl)` call in a trace: its time, ttl, and the
outcome the wrapped fetch function would produce. -/
structure Call where
  t : Nat
  ttl : Nat
  func : Except PyErr String
deriving DecidableEq, Repr

/-- Run a list of `getPage` calls against the same URL, threading the
store. -/
def runCalls (u : String) (s : Store) : List Call → Store
  | [] => s
  | c :: rest => runCalls u (wrapper s c.t c.ttl u c.func).store rest

/-- An operation of the public interface: a `getPage` call or a
`get_count` call. -/
inductive Op where
  | page (url : String) (t : Nat) (ttl : Nat) (func : Except PyErr String)
  | count (url : String) (t : Nat)
deriving DecidableEq, Repr

/-- Store effect of one operation (`get_count` writes nothing). -/
def applyOp (s : Store) : Op → Store
  | .page url t ttl func => (wrapper s t ttl url func).store
  | .count _ _ => s

/-- Run a trace of operations. -/
def runOps (s : Store) : List Op → Store
  | [] => s
  | op :: rest => runOps (applyOp s op) rest

/-- An operation that does not write page content into the counter key
of `u`: any `get_count`, and any `getPage` whose URL differs from
`"count:" ++ u`. -/
def opAllowed (u : String) : Op → Bool
  | .page v _ _ _ => v ≠ countKey u
  | .count _ _ => true

/-- The counter of `u` holds the value `n`: absent for `n = 0`, else
the decimal string of `n` with no expiry — exactly the states Redis
INCR produces from a fresh key. -/
def counterIs (s : Store) (u : String) (n : Nat) : Prop :=
  (n = 0 ∧ rawLookup s (countKey u) = none) ∨
  (1 ≤ n ∧ rawLookup s (countKey u) = some (natToString n, none))

/-- The increment step of `wrapper` succeeds in state `s`. -/
def incrOk (s : Store) (t : Nat) (u : String) : Prop :=
  ∃ s1 m, redisIncr s t (countKey u) = .ok (s1, m)

/-! ### Helper lemmas: store primitives -/

theorem rawLookup_setKey (s : Store) (key v : String) (d : Option Nat) (k2 : String) :
    rawLookup (setKey s key v d) k2 =
      if key = k2 then some (v, d) else rawLookup s k2 := by
  induction s with
  | nil =>
    by_cases h : key = k2 <;> simp [setKey, rawLookup, h]
  | cons row rest ih =>
    obtain ⟨k0, v0, d0⟩ := row
    by_cases hk : k0 = key
    · subst hk
      by_cases h2 : k0 = k2 <;> simp [setKey, rawLookup, h2]
    · by_cases h2 : k0 = k2
      · subst h2
        have hne : ¬ key = k0 := fun h => hk h.symm
        simp [setKey, rawLookup, hk, hne]
      · simp [setKey, rawLookup, hk, h2, ih]

theorem redisGet_congr {s1 s2 : Store} (t : Nat) (k : String)
    (h : rawLookup s1 k = rawLookup s2 k) : redisGet s1 t k = redisGet s2 t k := by
  unfold redisGet
  rw [h]

theorem countKey_ne_self (u : String) : countKey u ≠ u := by
  intro h
  have h2 : ("count:" ++ u).data.length = u.data.length := by
    rw [show ("count:" ++ u) = u from h]
  rw [String.data_append, List.length_append] at h2
  have h6 : ("count:" : String).data.length = 6 := rfl
  omega

theorem countKey_inj {u v : String} (h : countKey u = countKey v) : u = v := by
  have h2 : ("count:" ++ u).data = ("count:" ++ v).data := by
    rw [show ("count:" ++ u) = ("count:" ++ v) from h]
  rw [String.data_append, String.data_append] at h2
  simp at h2
  exact String.ext h2

/-! ### Helper lemmas: decimal printing and parsing -/

theorem charToDigit?_digitToChar : ∀ d, d < 10 → charToDigit? (digitToChar d) = some d := by
  decide

theorem digitToChar_ne_sign : ∀ d, d < 10 → digitToChar d ≠ '-' ∧ digitToChar d ≠ '+' := by
  decide

theorem parseDigitsAux_append (acc : Nat) (l1 l2 : List Char) :
    parseDigitsAux acc (l1 ++ l2) =
      match parseDigitsAux acc l1 with
      | some a => parseDigitsAux a l2
      | none => none := by
  induction l1 generalizing acc with
  | nil => simp [parseDigitsAux]
  | cons c cs ih =>
    simp only [List.cons_append, parseDigitsAux]
    cases charToDigit? c with
    | none => simp
    | some d => simp [ih]

theorem natToCharsAux_fuel (f1 : Nat) :
    ∀ f2 n, n < f1 → n < f2 → natToCharsAux f1 n = natToCharsAux f2 n := by
  induction f1 with
  | zero => intro f2 n h1 _; omega
  | succ f ih =>
    intro f2 n h1 h2
    cases f2 with
    | zero => omega
    | succ g =>
      by_cases hn : n < 10
      · simp [natToCharsAux, hn]
      · have hdf : n / 10 < f := by
          have := Nat.div_lt_self (show 0 < n by omega) (show 1 < 10 by omega)
          omega
        have hdg : n / 10 < g := by
          have := Nat.div_lt_self (show 0 < n by omega) (show 1 < 10 by omega)
          omega
        simp [natToCharsAux, hn, ih g (n / 10) hdf hdg]

theorem parseDigitsAux_natToCharsAux (fuel : Nat) :
    ∀ n acc, n < fuel →
      parseDigitsAux acc (natToCharsAux fuel n) =
        some (acc * 10 ^ (natToCharsAux fuel n).length + n) := by
  induction fuel with
  | zero => intro n acc h; omega
  | succ f ih =>
    intro n acc h
    by_cases hn : n < 10
    · simp [natToCharsAux, hn, parseDigitsAux, charToDigit?_digitToChar n hn]
    · have hd : n / 10 < f := by
        have := Nat.div_lt_self (show 0 < n by omega) (show 1 < 10 by omega)
        omega
      simp only [natToCharsAux, hn, if_false]
      rw [parseDigitsAux_append, ih (n / 10) acc hd]
      simp only [parseDigitsAux, charToDigit?_digitToChar (n % 10) (Nat.mod_lt n (by omega)),
        List.length_append, List.length_cons, List.length_nil, Nat.zero_add]
      rw [pow_succ, ← mul_assoc]
      congr 1
      rw [Nat.add_mul, Nat.add_assoc]
      omega

theorem natToCharsAux_ne_nil (f n : Nat) (h : n < f) : natToCharsAux f n ≠ [] := by
  cases f with
  | zero => omega
  | succ g =>
    by_cases hn : n < 10 <;> simp [natToCharsAux, hn]

theorem natToChars_ne_nil (n : Nat) : natToChars n ≠ [] :=
  natToCharsAux_ne_nil (n + 1) n (Nat.lt_succ_self n)

theorem natToString_ne_empty (n : Nat) : natToString n ≠ "" := by
  intro h
  exact natToChars_ne_nil n (congrArg String.data h)

theorem parseDigits?_natToChars (n : Nat) : parseDigits? (natToChars n) = some n := by
  have h := parseDigitsAux_natToCharsAux (n + 1) n 0 (Nat.lt_succ_self n)
  cases hc : natToChars n with
  | nil => exact absurd hc (natToChars_ne_nil n)
  | cons c cs =>
    have hc' : natToCharsAux (n + 1) n = c :: cs := hc
    rw [hc'] at h
    simp only [Nat.zero_mul, Nat.zero_add] at h
    simp [parseDigits?, h]

theorem natToCharsAux_head (f : Nat) :
    ∀ n, n < f → ∃ d cs, d < 10 ∧ natToCharsAux f n = digitToChar d :: cs := by
  induction f with
  | zero => intro n h; omega
  | succ g ih =>
    intro n h
    by_cases hn : n < 10
    · exact ⟨n, [], hn, by simp [natToCharsAux, hn]⟩
    · have hd : n / 10 < g := by
        have := Nat.div_lt_self (show 0 < n by omega) (show 1 < 10 by omega)
        omega
      obtain ⟨d, cs, hd10, hcs⟩ := ih (n / 10) hd
      exact ⟨d, cs ++ [digitToChar (n % 10)], hd10, by simp [natToCharsAux, hn, hcs]⟩

theorem pyInt?_cons {s : String} {c : Char} {cs : List Char} (hs : s.data = c :: cs)
    (h1 : c ≠ '-') (h2 : c ≠ '+') :
    pyInt? s = (parseDigits? (c :: cs)).map (fun n => (n : Int)) := by
  unfold pyInt?
  rw [hs]
  simp [pyIntChars, h1, h2]

theorem pyInt?_neg_cons {s : String} {cs : List Char} (hs : s.data = '-' :: cs) :
    pyInt? s = (parseDigits? cs).map (fun n => -(n : Int)) := by
  unfold pyInt?
  rw [hs]
  simp [pyIntChars]

theorem pyInt?_natToString (n : Nat) : pyInt? (natToString n) = some (n : Int) := by
  obtain ⟨d, cs, hd, hcs⟩ := natToCharsAux_head (n + 1) n (Nat.lt_succ_self n)
  have hdata : (natToString n).data = digitToChar d :: cs := hcs
  have hchars : natToChars n = digitToChar d :: cs := hcs
  rw [pyInt?_cons hdata (digitToChar_ne_sign d hd).1 (digitToChar_ne_sign d hd).2]
  rw [← hchars, parseDigits?_natToChars n]
  rfl

theorem intToString_ofNat (n : Nat) : intToString ((n : Nat) : Int) = natToString n := by
  rw [intToString, if_neg (by omega)]
  congr 1

theorem pyInt?_intToString (i : Int) : pyInt? (intToString i) = some i := by
  by_cases h : i < 0
  · rw [intToString, if_pos h]
    have hdata : (("-" : String) ++ natToString i.natAbs).data =
        '-' :: natToChars i.natAbs := by
      rw [String.data_append]
      rfl
    rw [pyInt?_neg_cons hdata, parseDigits?_natToChars i.natAbs]
    show some (-((i.natAbs : Nat) : Int)) = some i
    have habs : -((i.natAbs : Nat) : Int) = i := by omega
    rw [habs]
  · have h0 : (0 : Int) ≤ i := by omega
    obtain ⟨n, rfl⟩ := Int.eq_ofNat_of_zero_le h0
    rw [intToString_ofNat, pyInt?_natToString]

/-! ### Helper lemmas: equation forms of the Redis operations -/

theorem redisGet_of_raw_none {s : Store} {k : String} (t : Nat)
    (h : rawLookup s k = none) : redisGet s t k = none := by
  unfold redisGet
  rw [h]

theorem redisGet_of_raw_some {s : Store} {k v : String} {d : Option Nat} (t : Nat)
    (h : rawLookup s k = some (v, d)) :
    redisGet s t k = if isExpired d t then none else some v := by
  unfold redisGet
  rw [h]

theorem truthyGet_congr {s1 s2 : Store} {t : Nat} {k : String}
    (h : redisGet s1 t k = redisGet s2 t k) : truthyGet s1 t k = truthyGet s2 t k := by
  unfold truthyGet
  rw [h]

theorem truthyGet_of_none {s : Store} {t : Nat} {k : String}
    (h : redisGet s t k = none) : truthyGet s t k = none := by
  unfold truthyGet
  rw [h]

theorem truthyGet_of_empty {s : Store} {t : Nat} {k : String}
    (h : redisGet s t k = some "") : truthyGet s t k = none := by
  unfold truthyGet
  rw [h]
  simp

theorem truthyGet_of_some {s : Store} {t : Nat} {k v : String}
    (h : redisGet s t k = some v) (hv : v ≠ "") : truthyGet s t k = some v := by
  unfold truthyGet
  rw [h]
  simp [hv]

theorem redisIncr_of_raw_none {s : Store} {k : String} (t : Nat)
    (h : rawLookup s k = none) :
    redisIncr s t k = .ok (setKey s k (intToString 1) none, 1) := by
  unfold redisIncr
  rw [h]

theorem redisIncr_of_raw_expired {s : Store} {k v : String} {d : Option Nat} {t : Nat}
    (h : rawLookup s k = some (v, d)) (he : isExpired d t = true) :
    redisIncr s t k = .ok (setKey s k (intToString 1) none, 1) := by
  unfold redisIncr
  rw [h]
  simp [he]

theorem redisIncr_of_raw_live {s : Store} {k v : String} {d : Option Nat} {t : Nat} {n : Int}
    (h : rawLookup s k = some (v, d)) (he : isExpired d t = false)
    (hp : pyInt? v = some n) :
    redisIncr s t k = .ok (setKey s k (intToString (n + 1)) d, n + 1) := by
  unfold redisIncr
  rw [h]
  simp [he, hp]

theorem redisIncr_of_raw_bad {s : Store} {k v : String} {d : Option Nat} {t : Nat}
    (h : rawLookup s k = some (v, d)) (he : isExpired d t = false)
    (hp : pyInt? v = none) :
    redisIncr s t k = .error .redisNotInt := by
  unfold redisIncr
  rw [h]
  simp [he, hp]

theorem redisIncr_cases {s : Store} {t : Nat} {k : String} {s1 : Store} {m : Int}
    (h : redisIncr s t k = .ok (s1, m)) :
    ∃ d, s1 = setKey s k (intToString m) d := by
  cases hr : rawLookup s k with
  | none =>
    rw [redisIncr_of_raw_none t hr] at h
    simp only [Except.ok.injEq, Prod.mk.injEq] at h
    exact ⟨none, by rw [← h.1, ← h.2]⟩
  | some p =>
    obtain ⟨v, d⟩ := p
    cases he : isExpired d t with
    | true =>
      rw [redisIncr_of_raw_expired hr he] at h
      simp only [Except.ok.injEq, Prod.mk.injEq] at h
      exact ⟨none, by rw [← h.1, ← h.2]⟩
    | false =>
      cases hp : pyInt? v with
      | none => rw [redisIncr_of_raw_bad hr he hp] at h; exact absurd h (by simp)
      | some n =>
        rw [redisIncr_of_raw_live hr he hp] at h
        simp only [Except.ok.injEq, Prod.mk.injEq] at h
        exact ⟨d, by rw [← h.1, ← h.2]⟩

theorem redisIncr_raw_self {s : Store} {t : Nat} {k : String} {s1 : Store} {m : Int}
    (h : redisIncr s t k = .ok (s1, m)) :
    ∃ d, rawLookup s1 k = some (intToString m, d) := by
  obtain ⟨d, rfl⟩ := redisIncr_cases h
  exact ⟨d, by rw [rawLookup_setKey, if_pos rfl]⟩

theorem redisIncr_raw_other {s : Store} {t : Nat} {k : String} {s1 : Store} {m : Int}
    (h : redisIncr s t k = .ok (s1, m)) (k2 : String) (hk : k ≠ k2) :
    rawLookup s1 k2 = rawLookup s k2 := by
  obtain ⟨d, rfl⟩ := redisIncr_cases h
  rw [rawLookup_setKey, if_neg hk]

/-! ### Helper lemmas: the wrapper branches -/

theorem wrapper_of_incr_error {s : Store} {t ttl : Nat} {url : String}
    {f : Except PyErr String} {e : PyErr}
    (h : redisIncr s t (countKey url) = .error e) :
    wrapper s t ttl url f = ⟨s, false, .error e⟩ := by
  unfold wrapper
  rw [h]

theorem wrapper_of_incr_ok {s s1 : Store} {t ttl : Nat} {url : String} {m : Int}
    {f : Except PyErr String}
    (hI : redisIncr s t (countKey url) = .ok (s1, m)) :
    wrapper s t ttl url f = wrapperAfterIncr s1 t ttl url f := by
  unfold wrapper
  rw [hI]

theorem wrapper_hit {s s1 : Store} {t ttl : Nat} {url page : String} {m : Int}
    {f : Except PyErr String}
    (hI : redisIncr s t (countKey url) = .ok (s1, m))
    (hT : truthyGet s1 t url = some page) :
    wrapper s t ttl url f = ⟨s1, false, .ok page⟩ := by
  rw [wrapper_of_incr_ok hI]
  unfold wrapperAfterIncr
  rw [hT]

theorem wrapper_miss_error {s s1 : Store} {t ttl : Nat} {url : String} {m : Int} {e : PyErr}
    (hI : redisIncr s t (countKey url) = .ok (s1, m))
    (hT : truthyGet s1 t url = none) :
    wrapper s t ttl url (.error e) = ⟨s1, true, .error e⟩ := by
  rw [wrapper_of_incr_ok hI]
  unfold wrapperAfterIncr
  rw [hT]

theorem wrapper_miss_ok {s s1 : Store} {t ttl : Nat} {url : String} {m : Int} {c : String}
    (hI : redisIncr s t (countKey url) = .ok (s1, m))
    (hT : truthyGet s1 t url = none) :
    wrapper s t ttl url (.ok c) = ⟨redisSetex s1 t url ttl c, true, .ok c⟩ := by
  rw [wrapper_of_incr_ok hI]
  unfold wrapperAfterIncr
  rw [hT]

theorem wrapper_raw_other {s : Store} {t ttl : Nat} {url : String} {f : Except PyErr String}
    (k : String) (hk1 : k ≠ countKey url) (hk2 : k ≠ url) :
    rawLookup (wrapper s t ttl url f).store k = rawLookup s k := by
  cases hI : redisIncr s t (countKey url) with
  | error e => rw [wrapper_of_incr_error hI]
  | ok p =>
    obtain ⟨s1, m⟩ := p
    have hs1 : rawLookup s1 k = rawLookup s k :=
      redisIncr_raw_other hI k (fun h => hk1 h.symm)
    cases hT : truthyGet s1 t url with
    | some page => rw [wrapper_hit hI hT]; exact hs1
    | none =>
      cases f with
      | error e => rw [wrapper_miss_error hI hT]; exact hs1
      | ok c =>
        rw [wrapper_miss_ok hI hT]
        show rawLookup (redisSetex s1 t url ttl c) k = rawLookup s k
        rw [redisSetex, rawLookup_setKey, if_neg (fun h => hk2 h.symm)]
        exact hs1

/-! ### Helper lemmas: the counter invariant -/

theorem counterIs_get_count {s : Store} {u : String} {n : Nat}
    (h : counterIs s u n) (t : Nat) : get_count s t u = .ok (n : Int) := by
  rcases h with ⟨h0, hraw⟩ | ⟨h1, hraw⟩
  · subst h0
    unfold get_count
    rw [redisGet_of_raw_none t hraw]
    rfl
  · unfold get_count
    rw [redisGet_of_raw_some t hraw]
    simp only [isExpired, if_false, Bool.false_eq_true]
    rw [if_neg (natToString_ne_empty n), pyInt?_natToString n]

theorem counterIs_incr {s : Store} {u : String} {n : Nat} (t : Nat)
    (h : counterIs s u n) :
    redisIncr s t (countKey u) =
      .ok (setKey s (countKey u) (natToString (n + 1)) none, ((n : Int) + 1)) := by
  rcases h with ⟨h0, hraw⟩ | ⟨h1, hraw⟩
  · subst h0
    rw [redisIncr_of_raw_none t hraw]
    rfl
  · rw [redisIncr_of_raw_live hraw rfl (pyInt?_natToString n)]
    have hcast : ((n : Int) + 1) = (((n + 1 : Nat) : Nat) : Int) := by push_cast; ring
    rw [hcast, intToString_ofNat (n + 1)]

theorem counterIs_setKey_self (s : Store) (u : String) (n : Nat) :
    counterIs (setKey s (countKey u) (natToString (n + 1)) none) u (n + 1) :=
  Or.inr ⟨by omega, by rw [rawLookup_setKey, if_pos rfl]⟩

theorem counterIs_setKey_other {s : Store} {u : String} {n : Nat} (h : counterIs s u n)
    {k : String} (v : String) (d : Option Nat) (hk : k ≠ countKey u) :
    counterIs (setKey s k v d) u n := by
  rcases h with ⟨h0, hraw⟩ | ⟨h1, hraw⟩
  · exact Or.inl ⟨h0, by rw [rawLookup_setKey, if_neg hk, hraw]⟩
  · exact Or.inr ⟨h1, by rw [rawLookup_setKey, if_neg hk, hraw]⟩

theorem counterIs_wrapper {s : Store} {u : String} {n : Nat} (t ttl : Nat)
    (f : Except PyErr String) (h : counterIs s u n) :
    counterIs (wrapper s t ttl u f).store u (n + 1) := by
  have hI := counterIs_incr t h
  have hbase := counterIs_setKey_self s u n
  cases hT : truthyGet (setKey s (countKey u) (natToString (n + 1)) none) t u with
  | some page => rw [wrapper_hit hI hT]; exact hbase
  | none =>
    cases f with
    | error e => rw [wrapper_miss_error hI hT]; exact hbase
    | ok c =>
      rw [wrapper_miss_ok hI hT]
      show counterIs (redisSetex (setKey s (countKey u) (natToString (n + 1)) none) t u ttl c) u (n + 1)
      rw [redisSetex]
      exact counterIs_setKey_other hbase c (some (t + ttl)) (fun h2 => countKey_ne_self u h2.symm)

theorem counterIs_of_raw_eq {s s2 : Store} {u : String} {n : Nat} (h : counterIs s u n)
    (heq : rawLookup s2 (countKey u) = rawLookup s (countKey u)) : counterIs s2 u n := by
  rcases h with ⟨h0, hraw⟩ | ⟨h1, hraw⟩
  · exact Or.inl ⟨h0, heq.trans hraw⟩
  · exact Or.inr ⟨h1, heq.trans hraw⟩

theorem counterIs_runCalls {u : String} {s : Store} {n : Nat} (h : counterIs s u n)
    (calls : List Call) : counterIs (runCalls u s calls) u (n + calls.length) := by
  induction calls generalizing s n with
  | nil => simpa using h
  | cons c rest ih =>
    have h1 := counterIs_wrapper c.t c.ttl c.func h
    have h2 := ih h1
    have harith : (n + 1) + rest.length = n + (rest.length + 1) := by omega
    rw [harith] at h2
    simpa [runCalls] using h2

theorem counterIs_applyOp {s : Store} {u : String} {n : Nat} (h : counterIs s u n)
    {op : Op} (hop : opAllowed u op = true) :
    ∃ m, n ≤ m ∧ counterIs (applyOp s op) u m := by
  cases op with
  | count url t => exact ⟨n, Nat.le_refl n, h⟩
  | page v t ttl f =>
    by_cases hv : v = u
    · subst hv
      exact ⟨n + 1, by omega, counterIs_wrapper t ttl f h⟩
    · have hvc : v ≠ countKey u := by simpa [opAllowed] using hop
      refine ⟨n, Nat.le_refl n, counterIs_of_raw_eq h ?_⟩
      exact wrapper_raw_other (countKey u)
        (fun h2 => hv (countKey_inj h2).symm) (fun h2 => hvc h2.symm)

theorem counterIs_runOps {s : Store} {u : String} {n : Nat} (h : counterIs s u n)
    {ops : List Op} (hops : ∀ op ∈ ops, opAllowed u op = true) :
    ∃ m, n ≤ m ∧ counterIs (runOps s ops) u m := by
  induction ops generalizing s n with
  | nil => exact ⟨n, Nat.le_refl n, h⟩
  | cons op rest ih =>
    obtain ⟨m1, hm1, h1⟩ := counterIs_applyOp h (hops op (by simp))
    obtain ⟨m2, hm2, h2⟩ := ih h1 (fun o ho => hops o (by simp [ho]))
    exact ⟨m2, Nat.le_trans hm1 hm2, by simpa [runOps] using h2⟩

theorem incrOk_of_raw_int {s : Store} {u : String} {m : Int} {d : Option Nat} (t : Nat)
    (h : rawLookup s (countKey u) = some (intToString m, d)) : incrOk s t u := by
  cases he : isExpired d t with
  | true => exact ⟨_, _, redisIncr_of_raw_expired h he⟩
  | false => exact ⟨_, _, redisIncr_of_raw_live h he (pyInt?_intToString m)⟩

theorem wrapper_first_miss {s : Store} {t ttl : Nat} {u c : String}
    (hmiss : truthyGet s t u = none) (hinc : incrOk s t u) :
    ∃ s1 m, redisIncr s t (countKey u) = .ok (s1, m) ∧
      wrapper s t ttl u (.ok c) = ⟨redisSetex s1 t u ttl c, true, .ok c⟩ := by
  obtain ⟨s1, m, hI⟩ := hinc
  have hT : truthyGet s1 t u = none := by
    rw [truthyGet_congr (redisGet_congr t u (redisIncr_raw_other hI u (countKey_ne_self u)))]
    exact hmiss
  exact ⟨s1, m, hI, wrapper_miss_ok hI hT⟩

theorem wrapper_first_miss_raw {s : Store} {t ttl : Nat} {u c : String}
    (hmiss : truthyGet s t u = none) (hinc : incrOk s t u) :
    rawLookup (wrapper s t ttl u (.ok c)).store u = some (c, some (t + ttl)) ∧
    ∃ m d, rawLookup (wrapper s t ttl u (.ok c)).store (countKey u) =
      some (intToString m, d) := by
  obtain ⟨s1, m, hI, hw⟩ := @wrapper_first_miss s t ttl u c hmiss hinc
  rw [hw]
  constructor
  · show rawLookup (redisSetex s1 t u ttl c) u = some (c, some (t + ttl))
    rw [redisSetex, rawLookup_setKey, if_pos rfl]
  · obtain ⟨d, hd⟩ := redisIncr_raw_self hI
    refine ⟨m, d, ?_⟩
    show rawLookup (redisSetex s1 t u ttl c) (countKey u) = some (intToString m, d)
    rw [redisSetex, rawLookup_setKey, if_neg (fun h2 => countKey_ne_self u h2.symm), hd]

/-! ### Claim theorems -/

/-- C1: every `getPage(u)` call increments the counter at `"count:" ++ u`
exactly once — hit, miss, or failed fetch, at any times and ttls — so
starting with no counter row for `u`, after `k` calls `get_count u`
returns `k`, at every observation time. -/
theorem getPage_increments_count (u : String) (s0 : Store) (calls : List Call)
    (h : rawLookup s0 (countKey u) = none) (t : Nat) :
    get_count (runCalls u s0 calls) t u = .ok (calls.length : Int) := by
  have h0 : counterIs s0 u 0 := Or.inl ⟨rfl, h⟩
  have h1 := counterIs_runCalls h0 calls
  rw [Nat.zero_add] at h1
  exact counterIs_get_count h1 t

theorem getPage_increments_count_app :
    get_count (runCalls "x" []
      [⟨0, 10, .ok "A"⟩, ⟨1, 10, .error (.requestsError "boom")⟩, ⟨20, 10, .ok "B"⟩])
      25 "x" = .ok 3 :=
  getPage_increments_count "x" []
    [⟨0, 10, .ok "A"⟩, ⟨1, 10, .error (.requestsError "boom")⟩, ⟨20, 10, .ok "B"⟩] rfl 25

/-- C2 as stated is false: `getPage("count:x")` stores the fetched page
at key `"count:x"`, exactly the key `getCount("x")` reads — here the
page body `"42"` becomes the observed access count of `"x"`. -/
theorem countKey_collision_concrete :
    get_count [] 0 "x" = .ok 0 ∧
    get_count (get_page [] 0 "count:x" (.success 200 "42")).store 0 "x" = .ok 42 := by
  constructor
  · rfl
  · decide

/-- C2 amended: for every URL the counter key differs from that URL's own
content key, and a counter key never equals the content key of a URL that
does not itself start with `"count:"`; but the content key of
`"count:" ++ w` is exactly the counter key of `w`, so the namespaces do
collide on such URLs. -/
theorem countKey_disjoint_amended :
    (∀ u : String, countKey u ≠ u) ∧
    (∀ u v : String, v.data.take 6 ≠ ("count:" : String).data → countKey u ≠ v) ∧
    (∀ w : String, countKey w = "count:" ++ w) := by
  refine ⟨countKey_ne_self, ?_, fun w => rfl⟩
  intro u v hv h
  apply hv
  rw [← h]
  show (("count:" ++ u) : String).data.take 6 = ("count:" : String).data
  rw [String.data_append]
  have h6 : ("count:" : String).data.length = 6 := rfl
  rw [← h6, List.take_left]

theorem countKey_disjoint_amended_app :
    countKey "x" ≠ "x" ∧ countKey "x" ≠ "y" :=
  ⟨countKey_disjoint_amended.1 "x",
   countKey_disjoint_amended.2.1 "x" "y" (by decide)⟩

/-- C3 as stated is false: a successful `getPage` that cached the empty
string is followed, within the TTL, by a call that invokes the fetcher
again — the hit test checks truthiness, and `""` is falsy, so the
fetcher runs twice in total. -/
theorem empty_cache_refetch_concrete :
    (get_page [] 0 "x" (.success 200 "")).result = .ok "" ∧
    (get_page (get_page [] 0 "x" (.success 200 "")).store 1 "x"
        (.success 200 "")).fetched = true := by
  constructor
  · decide
  · decide

/-- C3 amended: for every URL whose cache entry is present, unexpired
and non-empty — and whose counter increment succeeds — `getPage` returns
the stored content without fetching and without writing; hence a
successful `getPage(u, ttl)` that fetched non-empty content, followed by
a second call strictly before `t + ttl`, returns identical content with
the fetcher invoked only on the first call. -/
theorem cache_hit_amended :
    (∀ (s : Store) (t ttl : Nat) (u page : String) (f : Except PyErr String),
        truthyGet s t u = some page → incrOk s t u →
        (wrapper s t ttl u f).result = .ok page ∧
        (wrapper s t ttl u f).fetched = false ∧
        rawLookup (wrapper s t ttl u f).store u = rawLookup s u) ∧
    (∀ (s : Store) (t ttl t2 ttl2 : Nat) (u c : String) (f2 : Except PyErr String),
        truthyGet s t u = none → incrOk s t u → c ≠ "" → t2 < t + ttl →
        (wrapper s t ttl u (.ok c)).result = .ok c ∧
        (wrapper s t ttl u (.ok c)).fetched = true ∧
        (wrapper (wrapper s t ttl u (.ok c)).store t2 ttl2 u f2).result = .ok c ∧
        (wrapper (wrapper s t ttl u (.ok c)).store t2 ttl2 u f2).fetched = false) := by
  constructor
  · intro s t ttl u page f hhit hinc
    obtain ⟨s1, m, hI⟩ := hinc
    have hraw1 : rawLookup s1 u = rawLookup s u :=
      redisIncr_raw_other hI u (countKey_ne_self u)
    have hT : truthyGet s1 t u = some page := by
      rw [truthyGet_congr (redisGet_congr t u hraw1)]
      exact hhit
    rw [wrapper_hit hI hT]
    exact ⟨rfl, rfl, hraw1⟩
  · intro s t ttl t2 ttl2 u c f2 hmiss hinc hc ht2
    obtain ⟨s1, m, hI, hw⟩ := @wrapper_first_miss s t ttl u c hmiss hinc
    obtain ⟨hrawc, m2, d2, hrawk⟩ := @wrapper_first_miss_raw s t ttl u c hmiss hinc
    have hinc2 : incrOk (wrapper s t ttl u (.ok c)).store t2 u :=
      incrOk_of_raw_int t2 hrawk
    obtain ⟨s3, m3, hI2⟩ := hinc2
    have hraw3 : rawLookup s3 u = rawLookup (wrapper s t ttl u (.ok c)).store u :=
      redisIncr_raw_other hI2 u (countKey_ne_self u)
    have hget3 : redisGet s3 t2 u = some c := by
      rw [redisGet_of_raw_some t2 (hraw3.trans hrawc)]
      have he : isExpired (some (t + ttl)) t2 = false := by
        simp [isExpired]
        omega
      rw [he]
      simp
    have hT2 : truthyGet s3 t2 u = some c := truthyGet_of_some hget3 hc
    rw [hw]
    refine ⟨rfl, rfl, ?_, ?_⟩
    · rw [← hw, wrapper_hit hI2 hT2]
    · rw [← hw, wrapper_hit hI2 hT2]

theorem cache_hit_amended_app :
    ((wrapper [("x", "A", none), (countKey "x", "3", none)] 0 10 "x"
        (.error (.requestsError "down"))).result = .ok "A" ∧
      (wrapper [("x", "A", none), (countKey "x", "3", none)] 0 10 "x"
        (.error (.requestsError "down"))).fetched = false ∧
      rawLookup (wrapper [("x", "A", none), (countKey "x", "3", none)] 0 10 "x"
        (.error (.requestsError "down"))).store "x" =
        rawLookup [("x", "A", none), (countKey "x", "3", none)] "x") ∧
    ((wrapper [] 0 10 "x" (.ok "PAGE")).result = .ok "PAGE" ∧
      (wrapper [] 0 10 "x" (.ok "PAGE")).fetched = true ∧
      (wrapper (wrapper [] 0 10 "x" (.ok "PAGE")).store 1 10 "x"
        (.error (.requestsError "down"))).result = .ok "PAGE" ∧
      (wrapper (wrapper [] 0 10 "x" (.ok "PAGE")).store 1 10 "x"
        (.error (.requestsError "down"))).fetched = false) :=
  ⟨cache_hit_amended.1 [("x", "A", none), (countKey "x", "3", none)] 0 10 "x" "A"
      (.error (.requestsError "down")) (by decide) ⟨_, _, rfl⟩,
   cache_hit_amended.2 [] 0 10 1 10 "x" "PAGE" (.error (.requestsError "down"))
      rfl ⟨_, _, rfl⟩ (by decide) (by omega)⟩

/-- C4: on a cache miss (no visible entry for `u`) with a failing fetch,
`getPage` propagates the failure to the caller, the fetcher was invoked,
no cache entry for `u` exists afterwards, and the counter increment is
not rolled back — `get_count` rises by exactly 1, at every time. -/
theorem fetch_failure_propagates (s : Store) (t ttl : Nat) (u : String) (n : Nat) (e : PyErr)
    (hmiss : redisGet s t u = none) (hc : counterIs s u n) :
    (wrapper s t ttl u (.error e)).result = .error e ∧
    (wrapper s t ttl u (.error e)).fetched = true ∧
    redisGet (wrapper s t ttl u (.error e)).store t u = none ∧
    ∀ t2, get_count (wrapper s t ttl u (.error e)).store t2 u = .ok ((n : Int) + 1) := by
  have hI := counterIs_incr t hc
  have hraw1 : rawLookup (setKey s (countKey u) (natToString (n + 1)) none) u =
      rawLookup s u := by
    rw [rawLookup_setKey, if_neg (countKey_ne_self u)]
  have hg1 : redisGet (setKey s (countKey u) (natToString (n + 1)) none) t u = none :=
    (redisGet_congr t u hraw1).trans hmiss
  have hT : truthyGet (setKey s (countKey u) (natToString (n + 1)) none) t u = none :=
    truthyGet_of_none hg1
  rw [wrapper_miss_error hI hT]
  refine ⟨rfl, rfl, hg1, fun t2 => ?_⟩
  have h2 := counterIs_get_count (counterIs_setKey_self s u n) t2
  rw [h2]
  norm_num

theorem fetch_failure_propagates_app :
    (wrapper [] 0 10 "x" (.error (.requestsError "down"))).result =
      .error (.requestsError "down") ∧
    get_count (wrapper [] 0 10 "x" (.error (.requestsError "down"))).store 7 "x" =
      .ok 1 := by
  have h := fetch_failure_propagates [] 0 10 "x" 0 (.requestsError "down") rfl
    (Or.inl ⟨rfl, rfl⟩)
  refine ⟨h.1, ?_⟩
  have h4 := h.2.2.2 7
  norm_num at h4
  exact h4

/-- C5 as stated is false: a 404 response is not 2xx, yet the fetch body
of `get_page` returns that response's body as successful content — the
code never inspects the status code. -/
theorem non2xx_returns_body :
    fetchPage (.success 404 "NOT FOUND") = .ok "NOT FOUND" ∧
    (404 < 200 ∨ 299 < 404) ∧
    (get_page [] 0 "x" (.success 404 "NOT FOUND")).result = .ok "NOT FOUND" := by
  refine ⟨rfl, by omega, by decide⟩

/-- C5 amended: the fetch raises (the propagated `requests` exception)
exactly on transport failure; every received response — any status code —
has its body returned as successful content; no status check and no
timeout are configured. -/
theorem fetchPage_behavior :
    (∀ msg, fetchPage (.netFailure msg) = .error (.requestsError msg)) ∧
    (∀ st body, fetchPage (.success st body) = .ok body) :=
  ⟨fun _ => rfl, fun _ _ => rfl⟩

/-- C6: an entry written by a miss-path `getPage(u, ttl)` at time `t` is
invisible at every time from `t + ttl` on, and a `getPage` call then
invokes the fetcher again; the decorated `get_page` writes with the
default ttl 10, so its entries are gone from `t + 10` on. -/
theorem ttl_expiry :
    (∀ (s : Store) (t ttl t2 ttl2 : Nat) (u c : String) (f2 : Except PyErr String),
        truthyGet s t u = none → incrOk s t u → t + ttl ≤ t2 →
        redisGet (wrapper s t ttl u (.ok c)).store t2 u = none ∧
        (wrapper (wrapper s t ttl u (.ok c)).store t2 ttl2 u f2).fetched = true) ∧
    (∀ (s : Store) (t t2 : Nat) (u : String) (st : Nat) (body : String),
        truthyGet s t u = none → incrOk s t u → t + 10 ≤ t2 →
        redisGet (get_page s t u (.success st body)).store t2 u = none) := by
  have main : ∀ (s : Store) (t ttl t2 ttl2 : Nat) (u c : String) (f2 : Except PyErr String),
      truthyGet s t u = none → incrOk s t u → t + ttl ≤ t2 →
      redisGet (wrapper s t ttl u (.ok c)).store t2 u = none ∧
      (wrapper (wrapper s t ttl u (.ok c)).store t2 ttl2 u f2).fetched = true := by
    intro s t ttl t2 ttl2 u c f2 hmiss hinc ht2
    obtain ⟨hrawc, m2, d2, hrawk⟩ := @wrapper_first_miss_raw s t ttl u c hmiss hinc
    have hgone : redisGet (wrapper s t ttl u (.ok c)).store t2 u = none := by
      rw [redisGet_of_raw_some t2 hrawc]
      have he : isExpired (some (t + ttl)) t2 = true := by
        simp [isExpired]
        omega
      rw [he]
      simp
    refine ⟨hgone, ?_⟩
    have hinc2 : incrOk (wrapper s t ttl u (.ok c)).store t2 u :=
      incrOk_of_raw_int t2 hrawk
    obtain ⟨s3, m3, hI2⟩ := hinc2
    have hraw3 : rawLookup s3 u = rawLookup (wrapper s t ttl u (.ok c)).store u :=
      redisIncr_raw_other hI2 u (countKey_ne_self u)
    have hT2 : truthyGet s3 t2 u = none :=
      truthyGet_of_none ((redisGet_congr t2 u hraw3).trans hgone)
    cases f2 with
    | error e => rw [wrapper_miss_error hI2 hT2]
    | ok c2 => rw [wrapper_miss_ok hI2 hT2]
  refine ⟨main, ?_⟩
  intro s t t2 u st body hmiss hinc ht2
  exact (main s t 10 t2 0 u body (.ok "") hmiss hinc ht2).1

theorem ttl_expiry_app :
    (redisGet (wrapper [] 0 10 "x" (.ok "PAGE")).store 10 "x" = none ∧
      (wrapper (wrapper [] 0 10 "x" (.ok "PAGE")).store 10 5 "x"
        (.ok "PAGE2")).fetched = true) ∧
    redisGet (get_page [] 0 "x" (.success 200 "BODY")).store 12 "x" = none :=
  ⟨ttl_expiry.1 [] 0 10 10 5 "x" "PAGE" (.ok "PAGE2") rfl ⟨_, _, rfl⟩ (by omega),
   ttl_expiry.2 [] 0 12 "x" 200 "BODY" rfl ⟨_, _, rfl⟩ (by omega)⟩

/-- C7: `get_count u` reads `"count:" ++ u` and returns the parsed
integer stored there, or 0 when the key is absent — never an error on a
missing key; in particular every call on the empty store (before any
`get_page`) returns 0. -/
theorem get_count_contract :
    (∀ (s : Store) (t : Nat) (u : String),
        redisGet s t (countKey u) = none → get_count s t u = .ok 0) ∧
    (∀ (s : Store) (t : Nat) (u v : String) (n : Int),
        redisGet s t (countKey u) = some v → pyInt? v = some n →
        get_count s t u = .ok n) ∧
    (∀ (t : Nat) (u : String), get_count [] t u = .ok 0) := by
  refine ⟨?_, ?_, ?_⟩
  · intro s t u h
    unfold get_count
    rw [h]
  · intro s t u v n h hp
    have hv : v ≠ "" := by
      intro he
      subst he
      rw [show pyInt? "" = none from rfl] at hp
      cases hp
    have hred : get_count s t u =
        if v = "" then .ok 0 else
          match pyInt? v with
          | some n => .ok n
          | none => .error .valueError := by
      unfold get_count
      rw [h]
    rw [hred, if_neg hv, hp]
  · intro t u
    rfl

theorem get_count_contract_app :
    get_count [] 3 "http://example.test/a" = .ok 0 ∧
    get_count [(countKey "x", "7", none)] 0 "x" = .ok 7 :=
  ⟨get_count_contract.1 [] 3 "http://example.test/a" rfl,
   get_count_contract.2.1 [(countKey "x", "7", none)] 0 "x" "7" 7 (by decide) (by decide)⟩

/-- C8 as stated is false: with only `getPage` and `getCount` calls from
the empty store, `getPage("count:x")` overwrites the counter row of
`"x"` with page content `"0"` carrying a 10-second TTL; the later
`getPage("x")` increments that row to `"1"` keeping the TTL, so the
counter reads 1 at time 0 and drops to 0 at time 10 — it decreased and
it expired. -/
theorem counter_decrease_concrete :
    get_count (runOps []
      [.page "count:x" 0 10 (.ok "0"), .page "x" 0 10 (.ok "PAGE")]) 0 "x" = .ok 1 ∧
    get_count (runOps []
      [.page "count:x" 0 10 (.ok "0"), .page "x" 0 10 (.ok "PAGE")]) 10 "x" = .ok 0 := by
  constructor
  · decide
  · decide

/-- C8 amended: across any sequence of `getPage`/`getCount` operations
in which no `getPage` targets the URL `"count:" ++ u` itself, the
counter of `u` — starting from absent-or-`n` — only grows: afterwards it
holds some `m ≥ n`, readable at every time (no expiry), and `getCount`
never errors on it. -/
theorem counter_monotone_amended (u : String) (s0 : Store) (n : Nat) (ops : List Op)
    (h0 : counterIs s0 u n)
    (hops : ∀ op ∈ ops, opAllowed u op = true) :
    ∃ m, n ≤ m ∧ ∀ t, get_count (runOps s0 ops) t u = .ok (m : Int) := by
  obtain ⟨m, hm, hc⟩ := counterIs_runOps h0 hops
  exact ⟨m, hm, fun t => counterIs_get_count hc t⟩

theorem counter_monotone_amended_app :
    ∃ m : Nat, 1 ≤ m ∧ ∀ t, get_count (runOps [(countKey "x", natToString 1, none)]
      [.page "x" 0 10 (.ok "A"), .count "x" 3, .page "y" 5 10 (.ok "B")]) t "x" =
      .ok (m : Int) :=
  counter_monotone_amended "x" [(countKey "x", natToString 1, none)] 1
    [.page "x" 0 10 (.ok "A"), .count "x" 3, .page "y" 5 10 (.ok "B")]
    (Or.inr ⟨by omega, by decide⟩) (by decide)

/-- C9: a cached empty string is falsy, so `getPage` within the TTL
treats it as a miss — the fetcher is invoked and the entry is
overwritten with the fresh content and a new deadline. -/
theorem empty_string_is_miss (s : Store) (t ttl : Nat) (u c : String)
    (hempty : redisGet s t u = some "") (hinc : incrOk s t u) :
    (wrapper s t ttl u (.ok c)).fetched = true ∧
    (wrapper s t ttl u (.ok c)).result = .ok c ∧
    rawLookup (wrapper s t ttl u (.ok c)).store u = some (c, some (t + ttl)) := by
  obtain ⟨s1, m, hI⟩ := hinc
  have hg1 : redisGet s1 t u = redisGet s t u :=
    redisGet_congr t u (redisIncr_raw_other hI u (countKey_ne_self u))
  have hT : truthyGet s1 t u = none := truthyGet_of_empty (hg1.trans hempty)
  rw [wrapper_miss_ok hI hT]
  refine ⟨rfl, rfl, ?_⟩
  show rawLookup (redisSetex s1 t u ttl c) u = some (c, some (t + ttl))
  rw [redisSetex, rawLookup_setKey, if_pos rfl]

theorem empty_string_is_miss_app :
    (wrapper [("x", "", some 9)] 0 10 "x" (.ok "FRESH")).fetched = true ∧
    (wrapper [("x", "", some 9)] 0 10 "x" (.ok "FRESH")).result = .ok "FRESH" ∧
    rawLookup (wrapper [("x", "", some 9)] 0 10 "x" (.ok "FRESH")).store "x" =
      some ("FRESH", some (0 + 10)) :=
  empty_string_is_miss [("x", "", some 9)] 0 10 "x" "FRESH" (by decide) ⟨_, _, rfl⟩

/-- C10: `get_count` is partial on malformed counter values — after
`get_page` on the URL `"count:x"` stores the page body `"HELLO"` at key
`"count:x"`, `get_count "x"` applies `int(...)` to it and raises
`ValueError`. -/
theorem get_count_value_error_concrete :
    get_count (get_page [] 0 "count:x" (.success 200 "HELLO")).store 0 "x" =
      .error .valueError := by
  decide
